import Mathlib

/-
Verification development for the path_tracer repository.

Shallow embedding conventions:
  - Python floats are modelled as exact rationals (ℚ).
  - np.sqrt is modelled as an explicit parameter S : ℚ → ℚ threaded through
    every definition that the source computes a square root in; theorems that
    need sqrt to be a genuine square root take that as a hypothesis at the
    discriminant value involved, and witnesses instantiate S with wSqrt, a
    finite table that agrees with the exact square root at every value the
    witness computations consult it at (all perfect squares).
  - Vector3D.perturb (a random perturbation of a direction, ray_tracer/vectors)
    is nondeterministic; it is modelled as an explicit parameter
    P : ℚ → Vec3 → Vec3 (roughness, direction) ↦ perturbed direction.
  - Sphere textures and HDRI environments sample images through transcendental
    UV maps (arctan2, arcsin); they are modelled as opaque sampling functions
    (hit point ↦ color, respectively direction ↦ color), matching the spec
    description of a direction-to-color function.
  - The modules ray_tracer/vectors.py, ray_tracer/objects.py and
    ray_tracer/utils.py are imported by src/ray_tracer/ray_tracing.py but are
    not part of src/; their data types are modelled from the spec where noted.
-/

namespace PathTracer

/-- Three-component vector over ℚ. From the Vec3 class of src/main.py;
the spec-described Vector3D of ray_tracer/vectors.py (not in src/) has the
same operations per spec section 3 and 4.1, so one type models both. -/
structure Vec3 where
  x : ℚ
  y : ℚ
  z : ℚ
deriving DecidableEq

/-- Componentwise addition, from Vec3.__add__. -/
def Vec3.add (a b : Vec3) : Vec3 := ⟨a.x + b.x, a.y + b.y, a.z + b.z⟩

instance : Add Vec3 := ⟨Vec3.add⟩

/-- Componentwise subtraction, from Vec3.__sub__. -/
def Vec3.sub (a b : Vec3) : Vec3 := ⟨a.x - b.x, a.y - b.y, a.z - b.z⟩

instance : Sub Vec3 := ⟨Vec3.sub⟩

/-- Scalar multiplication, from Vec3.__mul__ with a scalar argument. -/
def Vec3.smul (v : Vec3) (k : ℚ) : Vec3 := ⟨v.x * k, v.y * k, v.z * k⟩

/-- Elementwise multiplication, from Vec3.__mul__ with a Vec3 argument
(used for color modulation). -/
def Vec3.hmul (a b : Vec3) : Vec3 := ⟨a.x * b.x, a.y * b.y, a.z * b.z⟩

/-- Dot product, from Vec3.dot. -/
def Vec3.dot (a b : Vec3) : ℚ := a.x * b.x + a.y * b.y + a.z * b.z

/-- The zero vector, used for black. -/
def Vec3.zero : Vec3 := ⟨0, 0, 0⟩

/-- Normalization, from Vec3.norm: length = sqrt(v . v), then
scale by 1.0 / max(length, 1e-6). S models np.sqrt. -/
def Vec3.normWith (S : ℚ → ℚ) (v : Vec3) : Vec3 :=
  v.smul (1 / max (S (v.dot v)) (1 / 1000000))

/-- Sphere primitive. Fields center, radius, color, reflection and texture are
from the Sphere class of src/main.py. The ray_tracer variant
(ray_tracer/objects.py, not in src/) additionally carries roughness; that
field is modelled from the spec: roughness is a real that is 0 or bigger
controlling random perturbation of the reflected ray (spec section 3), with
default 0 matching the design note of spec section 9. The texture is an
opaque sampler hit point ↦ color abstracting the equirectangular UV lookup. -/
structure Sphere where
  center : Vec3
  radius : ℚ
  color : Vec3
  reflection : ℚ
  roughness : ℚ := 0
  texture : Option (Vec3 → Vec3) := none

/-- From Sphere.get_surface_color: sample the texture at the hit point when a
texture is attached, otherwise return the flat base color. The UV projection
and image lookup are folded into the opaque sampler. -/
def Sphere.get_surface_color (s : Sphere) (hit_point : Vec3) : Vec3 :=
  match s.texture with
  | some tex => tex hit_point
  | none => s.color

/-- The quadratic coefficient b = 2 * oc.dot(ray_dir) computed in
Sphere.intersect (src/main.py line 61). -/
def Sphere.quadB (s : Sphere) (ray_origin ray_dir : Vec3) : ℚ :=
  2 * ((ray_origin - s.center).dot ray_dir)

/-- The quadratic coefficient c = oc.dot(oc) - radius ** 2 computed in
Sphere.intersect (src/main.py line 62). -/
def Sphere.quadC (s : Sphere) (ray_origin : Vec3) : ℚ :=
  (ray_origin - s.center).dot (ray_origin - s.center) - s.radius ^ 2

/-- The discriminant disc = b ** 2 - 4 * c of Sphere.intersect
(src/main.py line 63). -/
def Sphere.disc (s : Sphere) (ray_origin ray_dir : Vec3) : ℚ :=
  (s.quadB ray_origin ray_dir) ^ 2 - 4 * s.quadC ray_origin

/-- From Sphere.intersect (src/main.py lines 59 to 72; per spec section 4.2 the
ray_tracer variant implements the same test): when disc > 0 compute both
roots and return t0 if positive, else t1 if positive, else no hit; when
disc is not positive, no hit. S models np.sqrt. -/
def Sphere.intersect (S : ℚ → ℚ) (s : Sphere) (ray_origin ray_dir : Vec3) :
    Option ℚ :=
  let b := s.quadB ray_origin ray_dir
  let disc := s.disc ray_origin ray_dir
  if 0 < disc then
    let sqrtd := S disc
    let t0 := (-b - sqrtd) / 2
    let t1 := (-b + sqrtd) / 2
    if 0 < t0 then some t0
    else if 0 < t1 then some t1
    else none
  else none

/-- Point light. Modelled from the spec: ray_tracer/objects.py is not in src/;
spec section 3 gives Light a position (Vector3) and a per-channel intensity
(Vector3). -/
structure Light where
  position : Vec3
  intensity : Vec3

/-- Nearest-hit linear scan, from the loop at the top of trace (both
src/main.py lines 75 to 79 and src/ray_tracer/ray_tracing.py lines 33 to 37):
start from nearest_t = infinity (here: no hit yet) and keep the strictly
smallest t, the first object winning ties. The index of the winning object in
the scene list is recorded because the shadow test of ray_tracing.py compares
objects by identity (obj != nearest_obj). Intersect never returns t = 0, so
the Python truthiness test `if t` coincides with the Option test. -/
def nearestAux (S : ℚ → ℚ) (ray_origin ray_dir : Vec3) :
    List Sphere → ℕ → Option (ℚ × ℕ × Sphere) → Option (ℚ × ℕ × Sphere)
  | [], _, acc => acc
  | s :: rest, j, acc =>
    let acc' :=
      match s.intersect S ray_origin ray_dir with
      | some t =>
        match acc with
        | some (tb, ib, sb) => if t < tb then some (t, j, s) else some (tb, ib, sb)
        | none => some (t, j, s)
      | none => acc
    nearestAux S ray_origin ray_dir rest (j + 1) acc'

/-- Nearest hit over a whole scene: parameter t, index in the scene list, and
the object itself. -/
def nearestHit (S : ℚ → ℚ) (scene : List Sphere) (ray_origin ray_dir : Vec3) :
    Option (ℚ × ℕ × Sphere) :=
  nearestAux S ray_origin ray_dir scene 0 none

/-- The epsilon 1e-4 by which shadow and reflection ray origins are offset
along the normal (ray_tracing.py lines 54 and 77, main.py line 98). -/
def rayEps : ℚ := 1 / 10000

/-- The shadow occlusion test of trace (src/ray_tracer/ray_tracing.py lines
55 to 59): any(obj.intersect(shadow_ray_origin, light_dir) for obj in scene
if obj != nearest_obj). Objects are identified by their index in the scene
list; intersect never returns 0, so Python truthiness equals isSome.
The index j counts the position of the remaining list inside the scene. -/
def shadowOccludedAux (S : ℚ → ℚ) (ray_origin ray_dir : Vec3) (nearestIdx : ℕ) :
    List Sphere → ℕ → Bool
  | [], _ => false
  | s :: rest, j =>
    (if j = nearestIdx then false else (s.intersect S ray_origin ray_dir).isSome)
      || shadowOccludedAux S ray_origin ray_dir nearestIdx rest (j + 1)

/-- Direct-lighting accumulation of trace (src/ray_tracer/ray_tracing.py lines
51 to 62): for each light, normalize the direction to the light, offset the
shadow ray origin by rayEps along the normal, and when no other object
occludes, add intensity * max(normal.dot(light_dir), 0). The running sum of
the source is realized as a right fold; addition on ℚ vectors is associative
and commutative, so the grouping does not change the value. -/
def lightContribution (S : ℚ → ℚ) (scene : List Sphere) (nearestIdx : ℕ)
    (hit_point normal : Vec3) : List Light → Vec3
  | [] => Vec3.zero
  | light :: rest =>
    let light_dir := (light.position - hit_point).normWith S
    let shadow_ray_origin := hit_point + normal.smul rayEps
    let shadow_intersect :=
      shadowOccludedAux S shadow_ray_origin light_dir nearestIdx scene 0
    (if shadow_intersect then Vec3.zero
     else light.intensity.smul (max (normal.dot light_dir) 0))
      + lightContribution S scene nearestIdx hit_point normal rest

/-- The reflected ray direction of trace (src/ray_tracer/ray_tracing.py lines
71 to 75): mirror direction, normalized, then perturbed when the roughness of
the object is positive. P models Vector3D.perturb. -/
def reflectedDir (S : ℚ → ℚ) (P : ℚ → Vec3 → Vec3) (ray_dir normal : Vec3)
    (obj : Sphere) : Vec3 :=
  let base := (ray_dir - normal.smul (2 * normal.dot ray_dir)).normWith S
  if 0 < obj.roughness then P obj.roughness base else base

/-- The miss branch of trace (src/ray_tracer/ray_tracing.py lines 39 to 43):
environment color sampled along the ray direction when an environment is
configured, black otherwise. The main.py variant has no environment and always
returns black, which this also covers with environment = none. -/
def background (environment : Option (Vec3 → Vec3)) (ray_dir : Vec3) : Vec3 :=
  match environment with
  | some env => env ray_dir
  | none => Vec3.zero

namespace RayTracing

/-- The trace function of src/ray_tracer/ray_tracing.py (lines 10 to 90):
nearest-hit search, environment or black on a miss, surface color times
accumulated light contribution plus reflection contribution on a hit. The
recursive reflection call is guarded by depth < max_depth (and a positive
reflection coefficient) and recurses with depth + 1, so the recursion is
well founded on max_depth - depth. -/
def trace (S : ℚ → ℚ) (P : ℚ → Vec3 → Vec3) (ray_origin ray_dir : Vec3)
    (scene : List Sphere) (lights : List Light) (depth max_depth : ℕ)
    (environment : Option (Vec3 → Vec3)) : Vec3 :=
  match nearestHit S scene ray_origin ray_dir with
  | none => background environment ray_dir
  | some (nearest_t, idx, nearest_obj) =>
    let hit_point := ray_origin + ray_dir.smul nearest_t
    let normal := (hit_point - nearest_obj.center).normWith S
    let color := nearest_obj.get_surface_color hit_point
    let light_contribution := lightContribution S scene idx hit_point normal lights
    let reflection_contribution :=
      if h : depth < max_depth ∧ 0 < nearest_obj.reflection then
        let reflected_dir := reflectedDir S P ray_dir normal nearest_obj
        let reflected_origin := hit_point + normal.smul rayEps
        (trace S P reflected_origin reflected_dir scene lights (depth + 1)
          max_depth environment).smul nearest_obj.reflection
      else Vec3.zero
    color.hmul light_contribution + reflection_contribution
termination_by max_depth - depth
decreasing_by simp_wf; omega

/-- One non-recursive shading step: the body of trace with the reflection
contribution forced to zero (the value trace computes when it makes no
recursive call). -/
def traceNoReflect (S : ℚ → ℚ) (ray_origin ray_dir : Vec3)
    (scene : List Sphere) (lights : List Light)
    (environment : Option (Vec3 → Vec3)) : Vec3 :=
  match nearestHit S scene ray_origin ray_dir with
  | none => background environment ray_dir
  | some (nearest_t, idx, nearest_obj) =>
    let hit_point := ray_origin + ray_dir.smul nearest_t
    let normal := (hit_point - nearest_obj.center).normWith S
    let color := nearest_obj.get_surface_color hit_point
    color.hmul (lightContribution S scene idx hit_point normal lights)

/-- Fuel-indexed presentation of trace: the fuel is the number of reflection
bounces still allowed, max_depth - depth. Structural recursion on the fuel,
so a chain of nested recursive calls has length at most the initial fuel. -/
def traceFuel (S : ℚ → ℚ) (P : ℚ → Vec3 → Vec3) (fuel : ℕ)
    (ray_origin ray_dir : Vec3) (scene : List Sphere) (lights : List Light)
    (environment : Option (Vec3 → Vec3)) : Vec3 :=
  match nearestHit S scene ray_origin ray_dir with
  | none => background environment ray_dir
  | some (nearest_t, idx, nearest_obj) =>
    let hit_point := ray_origin + ray_dir.smul nearest_t
    let normal := (hit_point - nearest_obj.center).normWith S
    let color := nearest_obj.get_surface_color hit_point
    let light_contribution := lightContribution S scene idx hit_point normal lights
    let reflection_contribution :=
      match fuel with
      | 0 => Vec3.zero
      | f + 1 =>
        if 0 < nearest_obj.reflection then
          let reflected_dir := reflectedDir S P ray_dir normal nearest_obj
          let reflected_origin := hit_point + normal.smul rayEps
          (traceFuel S P f reflected_origin reflected_dir scene lights
            environment).smul nearest_obj.reflection
        else Vec3.zero
    color.hmul light_contribution + reflection_contribution

end RayTracing

namespace Main

/-- The trace function of src/main.py (lines 74 to 101): nearest-hit search,
black on a miss; on a hit the surface color, blended with the recursively
traced reflection weighted by reflection and 1 - reflection when depth < 3
and the object is reflective. The diffuse factor diff is computed by the
source but not used in the returned color (the line using it is commented
out in the source); it is kept here for fidelity. The light position
(5, 5, -10) is hardcoded in the source. -/
def trace (S : ℚ → ℚ) (ray_origin ray_dir : Vec3) (scene : List Sphere)
    (depth : ℕ) : Vec3 :=
  match nearestHit S scene ray_origin ray_dir with
  | none => Vec3.zero
  | some (nearest_t, _, nearest_obj) =>
    let hit_point := ray_origin + ray_dir.smul nearest_t
    let normal := (hit_point - nearest_obj.center).normWith S
    let light_dir := ((⟨5, 5, -10⟩ : Vec3) - hit_point).normWith S
    let _diff := max (normal.dot light_dir) 0
    let color := nearest_obj.get_surface_color hit_point
    if _h : depth < 3 ∧ 0 < nearest_obj.reflection then
      let reflect_dir := ray_dir - normal.smul (2 * ray_dir.dot normal)
      let reflection_color :=
        Main.trace S (hit_point + normal.smul rayEps) reflect_dir scene (depth + 1)
      color.smul (1 - nearest_obj.reflection)
        + reflection_color.smul nearest_obj.reflection
    else color
termination_by 3 - depth
decreasing_by simp_wf; omega

/-- Fuel-indexed presentation of the main.py trace, fuel = 3 - depth. -/
def traceFuel (S : ℚ → ℚ) (fuel : ℕ) (ray_origin ray_dir : Vec3)
    (scene : List Sphere) : Vec3 :=
  match nearestHit S scene ray_origin ray_dir with
  | none => Vec3.zero
  | some (nearest_t, _, nearest_obj) =>
    let hit_point := ray_origin + ray_dir.smul nearest_t
    let normal := (hit_point - nearest_obj.center).normWith S
    let color := nearest_obj.get_surface_color hit_point
    match fuel with
    | 0 => color
    | f + 1 =>
      if 0 < nearest_obj.reflection then
        let reflect_dir := ray_dir - normal.smul (2 * ray_dir.dot normal)
        let reflection_color :=
          Main.traceFuel S f (hit_point + normal.smul rayEps) reflect_dir scene
        color.smul (1 - nearest_obj.reflection)
          + reflection_color.smul nearest_obj.reflection
      else color

end Main

/-- A stand-in for np.sqrt used by concrete witnesses: a finite lookup table
that agrees with the exact square root at every argument the witness
computations consult it at (all of them perfect squares). -/
def wSqrt : ℚ → ℚ := fun q =>
  if q = 1 then 1
  else if q = 4 then 2
  else if q = 16 then 4
  else if q = 25 then 5
  else if q = 100 then 10
  else 0

/-- The identity perturbation, used by witnesses whose spheres all have
roughness 0 (the perturbation is then never consulted). -/
def noPerturb : ℚ → Vec3 → Vec3 := fun _ v => v

/-- Vector addition unfolded to components. -/
lemma Vec3.add_def (a b : Vec3) :
    a + b = ⟨a.x + b.x, a.y + b.y, a.z + b.z⟩ := rfl

/-- Vector subtraction unfolded to components. -/
lemma Vec3.sub_def (a b : Vec3) :
    a - b = ⟨a.x - b.x, a.y - b.y, a.z - b.z⟩ := rfl

/-- Adding the zero vector on the right is the identity. -/
@[simp] lemma Vec3.add_zero (v : Vec3) : v + Vec3.zero = v := by
  cases v
  simp [Vec3.add_def, Vec3.zero]

/-- Adding the zero vector on the left is the identity. -/
@[simp] lemma Vec3.zero_add (v : Vec3) : Vec3.zero + v = v := by
  cases v
  simp [Vec3.add_def, Vec3.zero]

/-- Elementwise multiplication by the zero vector gives the zero vector. -/
@[simp] lemma Vec3.hmul_zero (v : Vec3) : v.hmul Vec3.zero = Vec3.zero := by
  cases v
  simp [Vec3.zero, Vec3.hmul]

/-- The well-founded trace of ray_tracing.py agrees with its fuel-indexed
presentation at fuel max_depth - depth: every chain of nested recursive trace
calls is strictly bounded by the remaining reflection budget. -/
lemma RayTracing.rt_trace_eq_traceFuel (S : ℚ → ℚ) (P : ℚ → Vec3 → Vec3) :
    ∀ (n depth max_depth : ℕ), max_depth - depth = n →
    ∀ (ray_origin ray_dir : Vec3) (scene : List Sphere) (lights : List Light)
      (environment : Option (Vec3 → Vec3)),
    RayTracing.trace S P ray_origin ray_dir scene lights depth max_depth environment =
      RayTracing.traceFuel S P n ray_origin ray_dir scene lights environment := by
  intro n
  induction n with
  | zero =>
    intro depth max_depth hn o d scene lights env
    rw [RayTracing.trace.eq_def, RayTracing.traceFuel]
    cases hnh : nearestHit S scene o d with
    | none => rfl
    | some r =>
      obtain ⟨t, idx, obj⟩ := r
      have hc : ¬(depth < max_depth ∧ 0 < obj.reflection) :=
        fun hcon => absurd hcon.1 (by omega)
      simp only [dif_neg hc]
  | succ m ih =>
    intro depth max_depth hn o d scene lights env
    rw [RayTracing.trace.eq_def, RayTracing.traceFuel]
    cases hnh : nearestHit S scene o d with
    | none => rfl
    | some r =>
      obtain ⟨t, idx, obj⟩ := r
      by_cases hr : 0 < obj.reflection
      · have hc : depth < max_depth ∧ 0 < obj.reflection := ⟨by omega, hr⟩
        simp only [dif_pos hc, if_pos hr]
        rw [ih (depth + 1) max_depth (by omega)]
      · have hc : ¬(depth < max_depth ∧ 0 < obj.reflection) := by tauto
        simp only [dif_neg hc, if_neg hr]

/-- The well-founded trace of main.py agrees with its fuel-indexed
presentation at fuel 3 - depth. -/
lemma Main.main_trace_eq_traceFuel (S : ℚ → ℚ) :
    ∀ (n depth : ℕ), 3 - depth = n →
    ∀ (ray_origin ray_dir : Vec3) (scene : List Sphere),
    Main.trace S ray_origin ray_dir scene depth =
      Main.traceFuel S n ray_origin ray_dir scene := by
  intro n
  induction n with
  | zero =>
    intro depth hn o d scene
    rw [Main.trace.eq_def, Main.traceFuel]
    cases hnh : nearestHit S scene o d with
    | none => rfl
    | some r =>
      obtain ⟨t, idx, obj⟩ := r
      have hc : ¬(depth < 3 ∧ 0 < obj.reflection) :=
        fun hcon => absurd hcon.1 (by omega)
      simp only [dif_neg hc]
  | succ m ih =>
    intro depth hn o d scene
    rw [Main.trace.eq_def, Main.traceFuel]
    cases hnh : nearestHit S scene o d with
    | none => rfl
    | some r =>
      obtain ⟨t, idx, obj⟩ := r
      by_cases hr : 0 < obj.reflection
      · have hc : depth < 3 ∧ 0 < obj.reflection := ⟨by omega, hr⟩
        simp only [dif_pos hc, if_pos hr]
        rw [ih (depth + 1) (by omega)]
      · have hc : ¬(depth < 3 ∧ 0 < obj.reflection) := by tauto
        simp only [dif_neg hc, if_neg hr]

/-- When no sphere of the remaining list intersects the ray, the nearest-hit
scan leaves its accumulator unchanged. -/
lemma nearestAux_of_all_none (S : ℚ → ℚ) (o d : Vec3) :
    ∀ (l : List Sphere) (j : ℕ) (acc : Option (ℚ × ℕ × Sphere)),
    (∀ s_ ∈ l, s_.intersect S o d = none) →
    nearestAux S o d l j acc = acc := by
  intro l
  induction l with
  | nil => intro j acc _; rfl
  | cons s rest ih =>
    intro j acc hall
    simp only [nearestAux]
    rw [hall s (List.mem_cons_self s rest)]
    exact ih (j + 1) acc fun s_ hs => hall s_ (List.mem_cons_of_mem s hs)

/-- When no sphere of the scene intersects the ray, the nearest-hit search
reports a miss. -/
lemma nearestHit_of_all_none (S : ℚ → ℚ) (scene : List Sphere) (o d : Vec3)
    (hmiss : ∀ s_ ∈ scene, s_.intersect S o d = none) :
    nearestHit S scene o d = none :=
  nearestAux_of_all_none S o d scene 0 none hmiss

/-- A successful nearest-hit scan reports either a sphere of the list or the
sphere already held by the accumulator. -/
lemma nearestAux_mem (S : ℚ → ℚ) (o d : Vec3) :
    ∀ (l : List Sphere) (j : ℕ) (acc : Option (ℚ × ℕ × Sphere)) (r : ℚ × ℕ × Sphere),
    nearestAux S o d l j acc = some r → r.2.2 ∈ l ∨ acc = some r := by
  intro l
  induction l with
  | nil => intro j acc r h; right; exact h
  | cons s rest ih =>
    intro j acc r h
    simp only [nearestAux] at h
    rcases ih (j + 1) _ r h with hmem | hacc
    · left; exact List.mem_cons_of_mem s hmem
    · split at hacc
      · split at hacc
        · split at hacc
          · left
            obtain rfl : (_, j, s) = r := by simpa using hacc
            exact List.mem_cons_self s rest
          · right; exact hacc
        · left
          obtain rfl : (_, j, s) = r := by simpa using hacc
          exact List.mem_cons_self s rest
      · right; exact hacc

/-- A successful nearest-hit search over a scene reports a sphere of the
scene. -/
lemma nearestHit_mem (S : ℚ → ℚ) (scene : List Sphere) (o d : Vec3)
    (r : ℚ × ℕ × Sphere) (h : nearestHit S scene o d = some r) :
    r.2.2 ∈ scene := by
  rcases nearestAux_mem S o d scene 0 none r h with hmem | habs
  · exact hmem
  · exact absurd habs (by simp)

/-- The shadow occlusion test succeeds exactly when some sphere at an index
other than the nearest-hit index intersects the shadow ray. The running index
j is the position of the head of the remaining list within the scene. -/
lemma shadowOccludedAux_iff (S : ℚ → ℚ) (o d : Vec3) (i : ℕ) :
    ∀ (l : List Sphere) (j : ℕ),
    shadowOccludedAux S o d i l j = true ↔
      ∃ k s_, l.get? k = some s_ ∧ j + k ≠ i ∧
        (s_.intersect S o d).isSome = true := by
  intro l
  induction l with
  | nil =>
    intro j
    simp [shadowOccludedAux]
  | cons s rest ih =>
    intro j
    simp only [shadowOccludedAux, Bool.or_eq_true, ih (j + 1)]
    constructor
    · rintro (hhead | ⟨k, s_, hk, hne, hsome⟩)
      · by_cases hj : j = i
        · rw [if_pos hj] at hhead
          exact absurd hhead (by simp)
        · rw [if_neg hj] at hhead
          exact ⟨0, s, rfl, by simpa using hj, hhead⟩
      · exact ⟨k + 1, s_, hk, by omega, hsome⟩
    · rintro ⟨k, s_, hk, hne, hsome⟩
      cases k with
      | zero =>
        left
        obtain rfl : s = s_ := Option.some.injEq _ _ ▸ hk
        rw [if_neg (by omega : ¬ j = i)]
        exact hsome
      | succ k =>
        right
        exact ⟨k, s_, hk, by omega, hsome⟩

/-- The light contribution of the empty light list is zero. -/
lemma lightContribution_nil (S : ℚ → ℚ) (scene : List Sphere) (i : ℕ)
    (hit_point normal : Vec3) :
    lightContribution S scene i hit_point normal [] = Vec3.zero := rfl

/-- The light contribution of a single light unfolded: zero when the shadow
test reports occlusion, Lambertian diffuse intensity otherwise. -/
lemma lightContribution_single (S : ℚ → ℚ) (scene : List Sphere) (i : ℕ)
    (hit_point normal : Vec3) (light : Light) :
    lightContribution S scene i hit_point normal [light] =
      if shadowOccludedAux S (hit_point + normal.smul rayEps)
          ((light.position - hit_point).normWith S) i scene 0
      then Vec3.zero
      else light.intensity.smul
        (max (normal.dot ((light.position - hit_point).normWith S)) 0) := by
  simp only [lightContribution]
  split <;> simp

/-- At fuel zero the fuel-indexed trace is exactly the recursion-free shading
step. -/
lemma traceFuel_zero_eq (S : ℚ → ℚ) (P : ℚ → Vec3 → Vec3) (o d : Vec3)
    (scene : List Sphere) (lights : List Light) (env : Option (Vec3 → Vec3)) :
    RayTracing.traceFuel S P 0 o d scene lights env =
      RayTracing.traceNoReflect S o d scene lights env := by
  rw [RayTracing.traceFuel, RayTracing.traceNoReflect]
  cases hnh : nearestHit S scene o d with
  | none => rfl
  | some r =>
    obtain ⟨t, idx, obj⟩ := r
    exact Vec3.add_zero _

/-
Concrete geometry used by witnesses and counterexamples. All square roots
that these scenes lead trace or intersect to take are of perfect squares, so
wSqrt computes them exactly.
-/

/-- A sphere the witness rays graze tangentially: from origin 0 along
(0, 0, 1) its discriminant is exactly 0. -/
def wTangentSphere : Sphere := ⟨⟨0, 1, 3⟩, 1, ⟨1, 0, 0⟩, 0, 0, none⟩

/-- A sphere straight ahead of the witness ray: center (0, 0, 3), radius 1,
hit at t = 2 from origin 0 along (0, 0, 1). -/
def wFrontSphere : Sphere := ⟨⟨0, 0, 3⟩, 1, ⟨1, 1, 1⟩, 0, 0, none⟩

/-- A sphere behind the witness ray: positive discriminant but both roots
negative, so a miss. -/
def wBehindSphere : Sphere := ⟨⟨0, 0, -3⟩, 1, ⟨0, 1, 0⟩, 0, 0, none⟩

/-- A sphere far off the witness ray: negative discriminant. -/
def wFarSphere : Sphere := ⟨⟨5, 5, 5⟩, 1, ⟨0, 0, 1⟩, 0, 0, none⟩

/-- An environment sampler used by miss witnesses. -/
def wEnv : Vec3 → Vec3 := fun v => ⟨v.z, 0, 0⟩

/-- C2: for every sphere and every ray, intersect returns no hit when the
discriminant b^2 - 4c is at most 0 (a tangent ray with zero discriminant is a
miss), and when the discriminant is positive it returns
t0 = (-b - sqrt disc)/2 if t0 is positive, otherwise t1 = (-b + sqrt disc)/2
if t1 is positive, otherwise no hit: the smallest positive root, preferring
t0 over t1. -/
theorem C2_intersect_root_selection (S : ℚ → ℚ) (s : Sphere)
    (ray_origin ray_dir : Vec3) :
    (s.disc ray_origin ray_dir ≤ 0 → s.intersect S ray_origin ray_dir = none) ∧
    (0 < s.disc ray_origin ray_dir →
      s.intersect S ray_origin ray_dir =
        if 0 < (-(s.quadB ray_origin ray_dir) - S (s.disc ray_origin ray_dir)) / 2
        then some ((-(s.quadB ray_origin ray_dir) - S (s.disc ray_origin ray_dir)) / 2)
        else if 0 < (-(s.quadB ray_origin ray_dir) + S (s.disc ray_origin ray_dir)) / 2
        then some ((-(s.quadB ray_origin ray_dir) + S (s.disc ray_origin ray_dir)) / 2)
        else none) := by
  constructor
  · intro hd
    simp only [Sphere.intersect]
    rw [if_neg (not_lt.mpr hd)]
  · intro hd
    simp only [Sphere.intersect]
    rw [if_pos hd]

/-- Witness for C2: a concrete tangent ray (discriminant 0) is a miss, and a
concrete ray with positive discriminant takes the root-selection branch. -/
theorem C2_witness :
    Sphere.intersect wSqrt wTangentSphere ⟨0, 0, 0⟩ ⟨0, 0, 1⟩ = none ∧
    Sphere.intersect wSqrt wFrontSphere ⟨0, 0, 0⟩ ⟨0, 0, 1⟩ =
      (if 0 < (-(Sphere.quadB wFrontSphere ⟨0, 0, 0⟩ ⟨0, 0, 1⟩)
            - wSqrt (Sphere.disc wFrontSphere ⟨0, 0, 0⟩ ⟨0, 0, 1⟩)) / 2
       then some ((-(Sphere.quadB wFrontSphere ⟨0, 0, 0⟩ ⟨0, 0, 1⟩)
            - wSqrt (Sphere.disc wFrontSphere ⟨0, 0, 0⟩ ⟨0, 0, 1⟩)) / 2)
       else if 0 < (-(Sphere.quadB wFrontSphere ⟨0, 0, 0⟩ ⟨0, 0, 1⟩)
            + wSqrt (Sphere.disc wFrontSphere ⟨0, 0, 0⟩ ⟨0, 0, 1⟩)) / 2
       then some ((-(Sphere.quadB wFrontSphere ⟨0, 0, 0⟩ ⟨0, 0, 1⟩)
            + wSqrt (Sphere.disc wFrontSphere ⟨0, 0, 0⟩ ⟨0, 0, 1⟩)) / 2)
       else none) :=
  ⟨(C2_intersect_root_selection wSqrt wTangentSphere ⟨0, 0, 0⟩ ⟨0, 0, 1⟩).1
      (by norm_num [Sphere.disc, Sphere.quadB, Sphere.quadC, Vec3.dot,
        Vec3.sub_def, wTangentSphere]),
   (C2_intersect_root_selection wSqrt wFrontSphere ⟨0, 0, 0⟩ ⟨0, 0, 1⟩).2
      (by norm_num [Sphere.disc, Sphere.quadB, Sphere.quadC, Vec3.dot,
        Vec3.sub_def, wFrontSphere])⟩

/-- C4: trace terminates on every input, the nesting of recursive calls being
strictly bounded by max_depth: trace equals the fuel-indexed traceFuel whose
structural fuel is max_depth - depth, and with max_depth = 0 it equals the
recursion-free single shading step traceNoReflect, for every scene and every
reflection coefficient. -/
theorem C4_termination_depth_bound (S : ℚ → ℚ) (P : ℚ → Vec3 → Vec3)
    (ray_origin ray_dir : Vec3) (scene : List Sphere) (lights : List Light)
    (depth max_depth : ℕ) (environment : Option (Vec3 → Vec3)) :
    RayTracing.trace S P ray_origin ray_dir scene lights depth max_depth
        environment =
      RayTracing.traceFuel S P (max_depth - depth) ray_origin ray_dir scene
        lights environment ∧
    RayTracing.trace S P ray_origin ray_dir scene lights depth 0 environment =
      RayTracing.traceNoReflect S ray_origin ray_dir scene lights environment := by
  constructor
  · exact RayTracing.rt_trace_eq_traceFuel S P (max_depth - depth) depth max_depth
      rfl ray_origin ray_dir scene lights environment
  · rw [RayTracing.rt_trace_eq_traceFuel S P 0 depth 0 (by omega) ray_origin
      ray_dir scene lights environment]
    exact traceFuel_zero_eq S P ray_origin ray_dir scene lights environment

/-- C5: a ray that intersects no sphere of the scene makes trace return the
environment color sampled along the ray direction when an environment is
configured, and black otherwise; in the embedding trace is a total function,
so a miss is a value, not an error. -/
theorem C5_miss_background (S : ℚ → ℚ) (P : ℚ → Vec3 → Vec3)
    (ray_origin ray_dir : Vec3) (scene : List Sphere) (lights : List Light)
    (depth max_depth : ℕ) (environment : Option (Vec3 → Vec3))
    (hmiss : ∀ s_ ∈ scene, s_.intersect S ray_origin ray_dir = none) :
    RayTracing.trace S P ray_origin ray_dir scene lights depth max_depth
        environment =
      match environment with
      | some env => env ray_dir
      | none => Vec3.zero := by
  rw [RayTracing.trace.eq_def,
    nearestHit_of_all_none S scene ray_origin ray_dir hmiss]
  cases environment <;> rfl

/-- Witness for C5: a scene holding one sphere with negative discriminant and
one whose roots are both negative is missed entirely, and trace returns the
configured environment color of the ray direction. -/
theorem C5_witness :
    (∀ s_ ∈ [wBehindSphere, wFarSphere],
      s_.intersect wSqrt ⟨0, 0, 0⟩ ⟨0, 0, 1⟩ = none) ∧
    RayTracing.trace wSqrt noPerturb ⟨0, 0, 0⟩ ⟨0, 0, 1⟩
      [wBehindSphere, wFarSphere] [] 0 3 (some wEnv) = ⟨1, 0, 0⟩ := by
  have hmiss : ∀ s_ ∈ [wBehindSphere, wFarSphere],
      Sphere.intersect wSqrt s_ ⟨0, 0, 0⟩ ⟨0, 0, 1⟩ = none := by
    norm_num [List.forall_mem_cons, Sphere.intersect, Sphere.disc,
      Sphere.quadB, Sphere.quadC, Vec3.dot, Vec3.sub_def, wBehindSphere,
      wFarSphere, wSqrt]
  refine ⟨hmiss, ?_⟩
  rw [C5_miss_background wSqrt noPerturb ⟨0, 0, 0⟩ ⟨0, 0, 1⟩
    [wBehindSphere, wFarSphere] [] 0 3 (some wEnv) hmiss]
  rfl

/-- Occluding sphere located between the C3 witness light and hit point. -/
def wOccluderBetween : Sphere := wBehindSphere

/-- Occluding sphere located beyond the C10 witness light on the shadow ray
line: center (0, 0, -9), while the light sits at (0, 0, -3). -/
def wOccluderBeyond : Sphere := ⟨⟨0, 0, -9⟩, 1, ⟨0, 1, 0⟩, 0, 0, none⟩

/-- Light for the C3 witness, behind the occluder. -/
def wLightC3 : Light := ⟨⟨0, 0, -8⟩, ⟨1, 1, 1⟩⟩

/-- Light for the C10 witness, in front of the occluder. -/
def wLightC10 : Light := ⟨⟨0, 0, -3⟩, ⟨1, 1, 1⟩⟩

/-- C3: in the direct-lighting step, a light whose shadow ray is intersected
by some sphere at an index other than the nearest-hit index contributes
exactly zero; a light whose shadow ray is intersected by no such sphere
contributes intensity * max(normal.dot(light_dir), 0); and the occlusion test
never consults the nearest-hit sphere itself: replacing the scene entry at the
nearest-hit index by any sphere leaves the occlusion verdict unchanged. -/
theorem C3_direct_lighting (S : ℚ → ℚ) (scene : List Sphere) (i : ℕ)
    (hit_point normal : Vec3) (light : Light) :
    ((∃ k s_, scene.get? k = some s_ ∧ k ≠ i ∧
        (s_.intersect S (hit_point + normal.smul rayEps)
          ((light.position - hit_point).normWith S)).isSome = true) →
      lightContribution S scene i hit_point normal [light] = Vec3.zero) ∧
    ((∀ k s_, scene.get? k = some s_ → k ≠ i →
        s_.intersect S (hit_point + normal.smul rayEps)
          ((light.position - hit_point).normWith S) = none) →
      lightContribution S scene i hit_point normal [light] =
        light.intensity.smul
          (max (normal.dot ((light.position - hit_point).normWith S)) 0)) ∧
    (∀ s' : Sphere,
      shadowOccludedAux S (hit_point + normal.smul rayEps)
          ((light.position - hit_point).normWith S) i (scene.set i s') 0 =
        shadowOccludedAux S (hit_point + normal.smul rayEps)
          ((light.position - hit_point).normWith S) i scene 0) := by
  refine ⟨?_, ?_, ?_⟩
  · rintro ⟨k, s_, hk, hki, hsome⟩
    rw [lightContribution_single, if_pos]
    rw [shadowOccludedAux_iff]
    exact ⟨k, s_, hk, by omega, hsome⟩
  · intro hnone
    rw [lightContribution_single, if_neg]
    intro hocc
    rcases (shadowOccludedAux_iff S _ _ i scene 0).mp hocc with ⟨k, s_, hk, hki, hsome⟩
    rw [hnone k s_ hk (by omega)] at hsome
    exact absurd hsome (by simp)
  · intro s'
    rcases hb : shadowOccludedAux S (hit_point + normal.smul rayEps)
        ((light.position - hit_point).normWith S) i scene 0 with _ | _
    · rw [Bool.eq_false_iff]
      intro hocc
      rcases (shadowOccludedAux_iff S _ _ i _ 0).mp hocc with ⟨k, s_, hk, hki, hsome⟩
      rw [List.get?_set_ne s' _ (by omega : i ≠ k)] at hk
      have : shadowOccludedAux S (hit_point + normal.smul rayEps)
          ((light.position - hit_point).normWith S) i scene 0 = true :=
        (shadowOccludedAux_iff S _ _ i scene 0).mpr ⟨k, s_, hk, hki, hsome⟩
      rw [hb] at this
      exact absurd this (by simp)
    · rcases (shadowOccludedAux_iff S _ _ i scene 0).mp hb with ⟨k, s_, hk, hki, hsome⟩
      refine (shadowOccludedAux_iff S _ _ i _ 0).mpr ⟨k, s_, ?_, hki, hsome⟩
      rw [List.get?_set_ne s' _ (by omega : i ≠ k)]
      exact hk

/-- Witness for C3: a sphere placed directly between the light at (0, 0, -8)
and the hit point (0, 0, 2) suppresses the contribution of that light to
zero, and with no occluder present the same light contributes the Lambertian
diffuse term. -/
theorem C3_witness :
    lightContribution wSqrt [wFrontSphere, wOccluderBetween] 0 ⟨0, 0, 2⟩
      ⟨0, 0, -1⟩ [wLightC3] = Vec3.zero ∧
    lightContribution wSqrt [wFrontSphere] 0 ⟨0, 0, 2⟩ ⟨0, 0, -1⟩ [wLightC3] =
      wLightC3.intensity.smul
        (max ((⟨0, 0, -1⟩ : Vec3).dot
          ((wLightC3.position - ⟨0, 0, 2⟩).normWith wSqrt)) 0) := by
  constructor
  · refine (C3_direct_lighting wSqrt [wFrontSphere, wOccluderBetween] 0
      ⟨0, 0, 2⟩ ⟨0, 0, -1⟩ wLightC3).1 ⟨1, wOccluderBetween, rfl, by omega, ?_⟩
    norm_num [Sphere.intersect, Sphere.disc, Sphere.quadB, Sphere.quadC,
      Vec3.dot, Vec3.sub_def, Vec3.add_def, Vec3.smul, Vec3.normWith,
      wOccluderBetween, wBehindSphere, wLightC3, wSqrt, rayEps, max_def]
  · refine (C3_direct_lighting wSqrt [wFrontSphere] 0
      ⟨0, 0, 2⟩ ⟨0, 0, -1⟩ wLightC3).2.1 ?_
    intro k s_ hk hki
    cases k with
    | zero => omega
    | succ k => cases k <;> simp at hk

/-- C10: the shadow test counts any sphere at an index other than the
nearest-hit index whose intersection with the shadow ray is a hit as an
occluder, with no comparison of the hit distance t against the distance to
the light: even when the squared distance to the light is smaller than t
squared (the occluder lies beyond the light), the contribution is zero. -/
theorem C10_occlusion_ignores_light_distance (S : ℚ → ℚ) (scene : List Sphere)
    (i k : ℕ) (hit_point normal : Vec3) (light : Light) (s_ : Sphere) (t : ℚ)
    (hk : scene.get? k = some s_) (hki : k ≠ i)
    (hint : s_.intersect S (hit_point + normal.smul rayEps)
      ((light.position - hit_point).normWith S) = some t)
    (_hbeyond : (light.position - hit_point).dot (light.position - hit_point)
      < t ^ 2) :
    lightContribution S scene i hit_point normal [light] = Vec3.zero := by
  rw [lightContribution_single, if_pos]
  rw [shadowOccludedAux_iff]
  exact ⟨k, s_, hk, by omega, by rw [hint]; rfl⟩

/-- Witness for C10: the occluding sphere sits at (0, 0, -9), strictly beyond
the light at (0, 0, -3) as seen from the hit point (0, 0, 2) (squared light
distance 25, squared hit distance about 100), yet the contribution of the
light is zero. -/
theorem C10_witness :
    lightContribution wSqrt [wFrontSphere, wOccluderBeyond] 0 ⟨0, 0, 2⟩
      ⟨0, 0, -1⟩ [wLightC10] = Vec3.zero := by
  refine C10_occlusion_ignores_light_distance wSqrt
    [wFrontSphere, wOccluderBeyond] 0 1 ⟨0, 0, 2⟩ ⟨0, 0, -1⟩ wLightC10
    wOccluderBeyond (99999 / 10000) rfl (by omega) ?_ ?_
  · norm_num [Sphere.intersect, Sphere.disc, Sphere.quadB, Sphere.quadC,
      Vec3.dot, Vec3.sub_def, Vec3.add_def, Vec3.smul, Vec3.normWith,
      wOccluderBeyond, wLightC10, wSqrt, rayEps, max_def]
  · norm_num [Vec3.dot, Vec3.sub_def, wLightC10]

/-- Reflective sphere for the C1 witness. -/
def wMirrorSphere : Sphere := ⟨⟨0, 0, 3⟩, 1, ⟨1, 0, 0⟩, 1 / 2, 0, none⟩

/-- C1: when the nearest hit of a ray is a sphere with positive reflection
coefficient and depth < max_depth, trace returns exactly
surface_color * light_contribution + reflection_color * reflection_coefficient,
where reflection_color is the recursively traced color from the epsilon-offset
hit point along the reflected direction; the local term
surface_color * light_contribution carries coefficient one and is not scaled
by (1 - reflection_coefficient). -/
theorem C1_reflective_blend (S : ℚ → ℚ) (P : ℚ → Vec3 → Vec3)
    (ray_origin ray_dir : Vec3) (scene : List Sphere) (lights : List Light)
    (depth max_depth : ℕ) (environment : Option (Vec3 → Vec3))
    (t : ℚ) (i : ℕ) (obj : Sphere)
    (hhit : nearestHit S scene ray_origin ray_dir = some (t, i, obj))
    (hdepth : depth < max_depth) (hrefl : 0 < obj.reflection) :
    RayTracing.trace S P ray_origin ray_dir scene lights depth max_depth
        environment =
      (obj.get_surface_color (ray_origin + ray_dir.smul t)).hmul
        (lightContribution S scene i (ray_origin + ray_dir.smul t)
          ((ray_origin + ray_dir.smul t - obj.center).normWith S) lights)
      + (RayTracing.trace S P
          (ray_origin + ray_dir.smul t
            + ((ray_origin + ray_dir.smul t - obj.center).normWith S).smul rayEps)
          (reflectedDir S P ray_dir
            ((ray_origin + ray_dir.smul t - obj.center).normWith S) obj)
          scene lights (depth + 1) max_depth environment).smul obj.reflection := by
  rw [RayTracing.trace.eq_def, hhit]
  simp only [dif_pos (show depth < max_depth ∧ 0 < obj.reflection from
    ⟨hdepth, hrefl⟩)]

/-- Witness for C1: a reflective sphere hit head-on at depth 0 with
max_depth 3 produces exactly the additive blend of the theorem. -/
theorem C1_witness :
    RayTracing.trace wSqrt noPerturb ⟨0, 0, 0⟩ ⟨0, 0, 1⟩ [wMirrorSphere] [] 0 3
        none =
      (wMirrorSphere.get_surface_color
          ((⟨0, 0, 0⟩ : Vec3) + (⟨0, 0, 1⟩ : Vec3).smul 2)).hmul
        (lightContribution wSqrt [wMirrorSphere] 0
          ((⟨0, 0, 0⟩ : Vec3) + (⟨0, 0, 1⟩ : Vec3).smul 2)
          (((⟨0, 0, 0⟩ : Vec3) + (⟨0, 0, 1⟩ : Vec3).smul 2
            - wMirrorSphere.center).normWith wSqrt) [])
      + (RayTracing.trace wSqrt noPerturb
          ((⟨0, 0, 0⟩ : Vec3) + (⟨0, 0, 1⟩ : Vec3).smul 2
            + (((⟨0, 0, 0⟩ : Vec3) + (⟨0, 0, 1⟩ : Vec3).smul 2
              - wMirrorSphere.center).normWith wSqrt).smul rayEps)
          (reflectedDir wSqrt noPerturb ⟨0, 0, 1⟩
            (((⟨0, 0, 0⟩ : Vec3) + (⟨0, 0, 1⟩ : Vec3).smul 2
              - wMirrorSphere.center).normWith wSqrt) wMirrorSphere)
          [wMirrorSphere] [] 1 3 none).smul wMirrorSphere.reflection :=
  C1_reflective_blend wSqrt noPerturb ⟨0, 0, 0⟩ ⟨0, 0, 1⟩ [wMirrorSphere] [] 0 3
    none 2 0 wMirrorSphere
    (by norm_num [nearestHit, nearestAux, Sphere.intersect, Sphere.disc,
      Sphere.quadB, Sphere.quadC, Vec3.dot, Vec3.sub_def, wMirrorSphere, wSqrt])
    (by omega)
    (by norm_num [wMirrorSphere])

/-- Counterexample for C7 as stated: with zero lights and a non-reflective
white sphere hit at t = 2, trace returns black, not the unlit base surface
color (1, 1, 1) of the nearest hit sphere. -/
theorem C7_counterexample :
    nearestHit wSqrt [wFrontSphere] ⟨0, 0, 0⟩ ⟨0, 0, 1⟩ =
      some (2, 0, wFrontSphere) ∧
    wFrontSphere.get_surface_color
      ((⟨0, 0, 0⟩ : Vec3) + (⟨0, 0, 1⟩ : Vec3).smul 2) = ⟨1, 1, 1⟩ ∧
    RayTracing.trace wSqrt noPerturb ⟨0, 0, 0⟩ ⟨0, 0, 1⟩ [wFrontSphere] [] 0 3
      none = Vec3.zero ∧
    Vec3.zero ≠ (⟨1, 1, 1⟩ : Vec3) := by
  refine ⟨?_, rfl, ?_, ?_⟩
  · norm_num [nearestHit, nearestAux, Sphere.intersect, Sphere.disc,
      Sphere.quadB, Sphere.quadC, Vec3.dot, Vec3.sub_def, wFrontSphere, wSqrt]
  · rw [RayTracing.rt_trace_eq_traceFuel wSqrt noPerturb 3 0 3 rfl]
    norm_num [RayTracing.traceFuel, nearestHit, nearestAux, Sphere.intersect,
      Sphere.disc, Sphere.quadB, Sphere.quadC, Vec3.dot, Vec3.sub_def,
      Vec3.add_def, Vec3.smul, Vec3.normWith, Sphere.get_surface_color,
      lightContribution, wFrontSphere, wSqrt, Vec3.hmul, Vec3.zero, max_def]
  · simp [Vec3.zero, Vec3.mk.injEq]

/-- C7 amended: with zero lights and every sphere of the scene having
reflection coefficient 0, trace returns the background or environment color
for a ray that hits nothing, and black, the base surface color scaled by the
zero light contribution, for a ray that hits something (not the base surface
color itself). -/
theorem C7_no_lights_no_reflection (S : ℚ → ℚ) (P : ℚ → Vec3 → Vec3)
    (ray_origin ray_dir : Vec3) (scene : List Sphere) (depth max_depth : ℕ)
    (environment : Option (Vec3 → Vec3))
    (hrefl : ∀ s_ ∈ scene, s_.reflection = 0) :
    (nearestHit S scene ray_origin ray_dir = none →
      RayTracing.trace S P ray_origin ray_dir scene [] depth max_depth
          environment =
        match environment with
        | some env => env ray_dir
        | none => Vec3.zero) ∧
    (∀ (t : ℚ) (i : ℕ) (obj : Sphere),
      nearestHit S scene ray_origin ray_dir = some (t, i, obj) →
      RayTracing.trace S P ray_origin ray_dir scene [] depth max_depth
        environment = Vec3.zero) := by
  constructor
  · intro hmiss
    rw [RayTracing.trace.eq_def, hmiss]
    cases environment <;> rfl
  · intro t i obj hhit
    have hobj : obj.reflection = 0 :=
      hrefl obj (nearestHit_mem S scene ray_origin ray_dir (t, i, obj) hhit)
    have hc : ¬(depth < max_depth ∧ 0 < obj.reflection) := by
      rintro ⟨_, h2⟩
      rw [hobj] at h2
      exact absurd h2 (lt_irrefl 0)
    rw [RayTracing.trace.eq_def, hhit]
    simp only [dif_neg hc, lightContribution_nil, Vec3.hmul_zero, Vec3.add_zero]

/-- Witness for C7 amended: a concrete non-reflective scene with no lights
yields black on a hit. -/
theorem C7_witness :
    (∀ s_ ∈ [wFrontSphere], s_.reflection = 0) ∧
    RayTracing.trace wSqrt noPerturb ⟨0, 0, 0⟩ ⟨0, 0, 1⟩ [wFrontSphere] [] 0 3
      none = Vec3.zero := by
  have hrefl : ∀ s_ ∈ [wFrontSphere], s_.reflection = 0 := by
    norm_num [List.forall_mem_cons, wFrontSphere]
  refine ⟨hrefl, ?_⟩
  exact (C7_no_lights_no_reflection wSqrt noPerturb ⟨0, 0, 0⟩ ⟨0, 0, 1⟩
    [wFrontSphere] 0 3 none hrefl).2 2 0 wFrontSphere
    (by norm_num [nearestHit, nearestAux, Sphere.intersect, Sphere.disc,
      Sphere.quadB, Sphere.quadC, Vec3.dot, Vec3.sub_def, wFrontSphere, wSqrt])

/-- Sphere for the C8 counterexample: center (0, 0, 1), radius 1, so the
non-unit witness direction (0, 0, 2) yields discriminant 16 and the exact
root t = 4. -/
def wGrazeSphere : Sphere := ⟨⟨0, 0, 1⟩, 1, ⟨1, 1, 1⟩, 0, 0, none⟩

/-- Squared norm of the difference of two vectors after shifting by a scaled
direction, expanded for the quadratic argument. -/
lemma dot_add_smul (u v : Vec3) (t : ℚ) :
    (u + v.smul t).dot (u + v.smul t) =
      u.dot u + 2 * t * (u.dot v) + t ^ 2 * (v.dot v) := by
  cases u
  cases v
  simp only [Vec3.add_def, Vec3.smul, Vec3.dot]
  ring

/-- Shifting a point by a scaled direction commutes with subtracting the
center. -/
lemma add_smul_sub (a c v : Vec3) (t : ℚ) :
    a + v.smul t - c = (a - c) + v.smul t := by
  cases a
  cases c
  cases v
  simp only [Vec3.add_def, Vec3.sub_def, Vec3.smul, Vec3.mk.injEq]
  refine ⟨by ring, by ring, by ring⟩

/-- Every parameter returned by intersect is a root of the quadratic
t^2 + b t + c, provided S returns a genuine square root of the
discriminant. -/
lemma intersect_root (S : ℚ → ℚ) (s : Sphere) (ray_origin ray_dir : Vec3)
    (t : ℚ)
    (hS : S (s.disc ray_origin ray_dir) ^ 2 = s.disc ray_origin ray_dir)
    (hhit : s.intersect S ray_origin ray_dir = some t) :
    t ^ 2 + s.quadB ray_origin ray_dir * t + s.quadC ray_origin = 0 := by
  simp only [Sphere.intersect] at hhit
  by_cases hd : 0 < s.disc ray_origin ray_dir
  · rw [if_pos hd] at hhit
    have hq : S (s.disc ray_origin ray_dir) ^ 2 =
        s.quadB ray_origin ray_dir ^ 2 - 4 * s.quadC ray_origin := by
      rw [hS, Sphere.disc]
    by_cases ht0 : 0 < (-(s.quadB ray_origin ray_dir)
        - S (s.disc ray_origin ray_dir)) / 2
    · rw [if_pos ht0, Option.some.injEq] at hhit
      rw [← hhit]
      linear_combination hq / 4
    · rw [if_neg ht0] at hhit
      by_cases ht1 : 0 < (-(s.quadB ray_origin ray_dir)
          + S (s.disc ray_origin ray_dir)) / 2
      · rw [if_pos ht1, Option.some.injEq] at hhit
        rw [← hhit]
        linear_combination hq / 4
      · rw [if_neg ht1] at hhit
        exact absurd hhit (by simp)
  · rw [if_neg hd] at hhit
    exact absurd hhit (by simp)

/-- Counterexample for C8 as stated: for the non-unit direction (0, 0, 2) the
intersect of wGrazeSphere from the origin returns t = 4 (with the exact
square root of the discriminant 16), yet the squared distance of
origin + t * direction from the center is 49, far from the squared radius 1:
the round-trip identity fails for non-unit directions. -/
theorem C8_counterexample :
    Sphere.intersect wSqrt wGrazeSphere ⟨0, 0, 0⟩ ⟨0, 0, 2⟩ = some 4 ∧
    ((⟨0, 0, 0⟩ : Vec3) + (⟨0, 0, 2⟩ : Vec3).smul 4 - wGrazeSphere.center).dot
      ((⟨0, 0, 0⟩ : Vec3) + (⟨0, 0, 2⟩ : Vec3).smul 4 - wGrazeSphere.center)
      = 49 ∧
    wGrazeSphere.radius ^ 2 = 1 ∧ (49 : ℚ) ≠ 1 := by
  refine ⟨?_, ?_, ?_, by norm_num⟩
  · norm_num [Sphere.intersect, Sphere.disc, Sphere.quadB, Sphere.quadC,
      Vec3.dot, Vec3.sub_def, wGrazeSphere, wSqrt]
  · norm_num [Vec3.dot, Vec3.sub_def, Vec3.add_def, Vec3.smul, wGrazeSphere]
  · norm_num [wGrazeSphere]

/-- C8 amended: for every sphere, every ray origin and every unit-length
direction (direction.dot direction = 1), every parameter t returned by
intersect places origin + t * direction at squared distance radius^2 from the
center, provided S returns a genuine square root of the discriminant (the
identity is exact over ℚ, no tolerance needed). -/
theorem C8_roundtrip_unit_dir (S : ℚ → ℚ) (s : Sphere)
    (ray_origin ray_dir : Vec3) (t : ℚ)
    (hS : S (s.disc ray_origin ray_dir) ^ 2 = s.disc ray_origin ray_dir)
    (hunit : ray_dir.dot ray_dir = 1)
    (hhit : s.intersect S ray_origin ray_dir = some t) :
    (ray_origin + ray_dir.smul t - s.center).dot
      (ray_origin + ray_dir.smul t - s.center) = s.radius ^ 2 := by
  have hquad := intersect_root S s ray_origin ray_dir t hS hhit
  have hB : (ray_origin - s.center).dot ray_dir =
      s.quadB ray_origin ray_dir / 2 := by
    rw [Sphere.quadB]
    ring
  have hC : (ray_origin - s.center).dot (ray_origin - s.center) =
      s.quadC ray_origin + s.radius ^ 2 := by
    rw [Sphere.quadC]
    ring
  rw [add_smul_sub, dot_add_smul, hunit, hB, hC]
  linear_combination hquad

/-- Witness for C8 amended: the unit direction (0, 0, 1) from the origin hits
wFrontSphere at t = 2, and the hit point sits exactly at squared distance
radius^2 from the center. -/
theorem C8_witness :
    ((⟨0, 0, 0⟩ : Vec3) + (⟨0, 0, 1⟩ : Vec3).smul 2 - wFrontSphere.center).dot
      ((⟨0, 0, 0⟩ : Vec3) + (⟨0, 0, 1⟩ : Vec3).smul 2 - wFrontSphere.center) =
      wFrontSphere.radius ^ 2 :=
  C8_roundtrip_unit_dir wSqrt wFrontSphere ⟨0, 0, 0⟩ ⟨0, 0, 1⟩ 2
    (by norm_num [Sphere.disc, Sphere.quadB, Sphere.quadC, Vec3.dot,
      Vec3.sub_def, wFrontSphere, wSqrt])
    (by norm_num [Vec3.dot])
    (by norm_num [Sphere.intersect, Sphere.disc, Sphere.quadB, Sphere.quadC,
      Vec3.dot, Vec3.sub_def, wFrontSphere, wSqrt])

/-- The aspect ratio width / height computed by the render functions
(src/ray_tracer/ray_tracing.py line 139). -/
def aspect_ratio (width height : ℚ) : ℚ := width / height

/-- Left screen bound, screen[0] = -1 (ray_tracing.py line 141). -/
def screenLeft : ℚ := -1

/-- Top screen bound, screen[1] = 1 / aspect_ratio (ray_tracing.py line 141). -/
def screenTop (width height : ℚ) : ℚ := 1 / aspect_ratio width height

/-- Right screen bound, screen[2] = 1 (ray_tracing.py line 141). -/
def screenRight : ℚ := 1

/-- Bottom screen bound, screen[3] = -1 / aspect_ratio
(ray_tracing.py line 141). -/
def screenBottom (width height : ℚ) : ℚ := -(1 / aspect_ratio width height)

/-- Magnitude bound of the horizontal jitter drawn by
np.random.uniform(-1/width, 1/width) in render_monte_carlo_live (line 150)
and render_pixel (line 167). -/
def jitterBoundU (width : ℚ) : ℚ := 1 / width

/-- Magnitude bound of the vertical jitter drawn by
np.random.uniform(-1/height, 1/height) in render_monte_carlo_live (line 151)
and render_pixel (line 168). -/
def jitterBoundV (height : ℚ) : ℚ := 1 / height

/-- Width of the screen-space footprint of one pixel: horizontal screen span
divided by the pixel count. -/
def pixelFootprintWidth (width : ℚ) : ℚ := (screenRight - screenLeft) / width

/-- Height of the screen-space footprint of one pixel: vertical screen span
divided by the pixel count. -/
def pixelFootprintHeight (width height : ℚ) : ℚ :=
  (screenTop width height - screenBottom width height) / height

/-- Counterexample for C9 as stated: at width 200, height 100 the vertical
jitter bound is 1/100 while half the pixel footprint height is 1/200, so the
vertical jitter is not bounded by half the pixel footprint height. -/
theorem C9_counterexample :
    jitterBoundV 100 = 1 / 100 ∧
    pixelFootprintHeight 200 100 / 2 = 1 / 200 ∧
    ¬ jitterBoundV 100 ≤ pixelFootprintHeight 200 100 / 2 := by
  norm_num [jitterBoundV, pixelFootprintHeight, screenTop, screenBottom,
    aspect_ratio]

/-- C9 amended: the horizontal jitter bound 1/width is exactly half the pixel
footprint width for every positive width and height, but the vertical jitter
bound 1/height is at most half the pixel footprint height exactly when
width is at most height; for wide images the vertical jitter exceeds half the
pixel footprint height. -/
theorem C9_jitter_bounds (width height : ℚ) (hw : 0 < width)
    (hh : 0 < height) :
    jitterBoundU width = pixelFootprintWidth width / 2 ∧
    (jitterBoundV height ≤ pixelFootprintHeight width height / 2 ↔
      width ≤ height) := by
  constructor
  · rw [jitterBoundU, pixelFootprintWidth, screenRight, screenLeft]
    ring
  · have h2 : pixelFootprintHeight width height / 2 = 1 / width := by
      rw [pixelFootprintHeight, screenTop, screenBottom, aspect_ratio]
      field_simp
      ring
    rw [h2, jitterBoundV, one_div_le_one_div hh hw]

/-- Witness for C9 amended: at the square size 100 x 100 both bounds hold
with equality of the horizontal part and the iff of the vertical part. -/
theorem C9_witness :
    jitterBoundU 100 = pixelFootprintWidth 100 / 2 ∧
    (jitterBoundV 100 ≤ pixelFootprintHeight 100 100 / 2 ↔
      (100 : ℚ) ≤ 100) :=
  C9_jitter_bounds 100 100 (by norm_num) (by norm_num)

/-- Scene sphere for the C6 counterexample. -/
def wC6Sphere : Sphere := ⟨⟨2, 1, -9⟩, 1, ⟨1, 1, 1⟩, 0, 0, none⟩

/-- Light mirroring the position hardcoded by main.py, with unit intensity,
for the C6 counterexample. -/
def wC6Light : Light := ⟨⟨5, 5, -10⟩, ⟨1, 1, 1⟩⟩

/-- Counterexample for C6 as stated: on the common input (one white
non-reflective sphere, the ray from (2, 1, -12) along (0, 0, 1), depth 3) the
main.py trace returns the surface color (1, 1, 1) while the ray_tracing.py
trace, called with the very light main.py hardcodes and its default
max_depth 3 and no environment, returns black: the two functions do not
compute the same color. -/
theorem C6_counterexample :
    Main.trace wSqrt ⟨2, 1, -12⟩ ⟨0, 0, 1⟩ [wC6Sphere] 3 = ⟨1, 1, 1⟩ ∧
    RayTracing.trace wSqrt noPerturb ⟨2, 1, -12⟩ ⟨0, 0, 1⟩ [wC6Sphere]
      [wC6Light] 3 3 none = Vec3.zero ∧
    (⟨1, 1, 1⟩ : Vec3) ≠ Vec3.zero := by
  refine ⟨?_, ?_, by simp [Vec3.zero, Vec3.mk.injEq]⟩
  · rw [Main.main_trace_eq_traceFuel wSqrt 0 3 rfl]
    norm_num [Main.traceFuel, nearestHit, nearestAux, Sphere.intersect,
      Sphere.disc, Sphere.quadB, Sphere.quadC, Vec3.dot, Vec3.sub_def,
      Sphere.get_surface_color, wC6Sphere, wSqrt]
  · rw [RayTracing.rt_trace_eq_traceFuel wSqrt noPerturb 0 3 3 rfl]
    norm_num [RayTracing.traceFuel, nearestHit, nearestAux, Sphere.intersect,
      Sphere.disc, Sphere.quadB, Sphere.quadC, Vec3.dot, Vec3.sub_def,
      Vec3.add_def, Vec3.smul, Vec3.normWith, Sphere.get_surface_color,
      lightContribution, shadowOccludedAux, wC6Sphere, wC6Light, wSqrt,
      rayEps, max_def, Vec3.hmul, Vec3.zero]

/-- C6 amended: the two trace functions are not duplicated presentations of
the same algorithm (main.py ignores the diffuse factor it computes and blends
surface_color * (1 - reflection) + reflection_color * reflection, while
ray_tracing.py scales the surface color by the accumulated light contribution
and adds reflection_color * reflection); they agree on every ray that hits no
sphere of the scene, both returning black when no environment is
configured. -/
theorem C6_agree_on_miss (S : ℚ → ℚ) (P : ℚ → Vec3 → Vec3)
    (ray_origin ray_dir : Vec3) (scene : List Sphere) (lights : List Light)
    (depth max_depth : ℕ)
    (hmiss : ∀ s_ ∈ scene, s_.intersect S ray_origin ray_dir = none) :
    Main.trace S ray_origin ray_dir scene depth =
      RayTracing.trace S P ray_origin ray_dir scene lights depth max_depth
        none := by
  rw [Main.trace.eq_def, RayTracing.trace.eq_def,
    nearestHit_of_all_none S scene ray_origin ray_dir hmiss]
  rfl

/-- Witness for C6 amended: a concrete missed scene on which both trace
functions return black. -/
theorem C6_witness :
    Main.trace wSqrt ⟨0, 0, 0⟩ ⟨0, 0, 1⟩ [wFarSphere] 0 =
      RayTracing.trace wSqrt noPerturb ⟨0, 0, 0⟩ ⟨0, 0, 1⟩ [wFarSphere]
        [wLightC3] 0 3 none :=
  C6_agree_on_miss wSqrt noPerturb ⟨0, 0, 0⟩ ⟨0, 0, 1⟩ [wFarSphere] [wLightC3]
    0 3
    (by norm_num [List.forall_mem_cons, Sphere.intersect, Sphere.disc,
      Sphere.quadB, Sphere.quadC, Vec3.dot, Vec3.sub_def, wFarSphere])

end PathTracer
